import Mathlib

/-!
Verification of the per-database data-source registry and lifecycle logic of
`arangod/VocBase/vocbase.cpp` (`TRI_vocbase_t`).

The registry keeps three indices (`_dataSourceByName`, `_dataSourceById`,
`_dataSourceByUuid`), mapping names / numeric ids / globally-unique ids to
shared handles of logical collections and views.  The C++ maps are
`std::unordered_map`; we model each one as an association list with pairwise
distinct keys, with `emplace` (insert-if-absent), `erase` (remove by key) and
`find` translated one-to-one.  A `shared_ptr` stored in several maps at once is
modelled by updating the stored record in every index whenever the pointed-to
object is mutated (`mupdate`).

Machine integers: collection ids are `TRI_voc_cid_t` (`uint64_t`); the claims
never exercise overflow of ids, so they are plain `Nat`.  The database
reference counter `_refCount` is a `uint64_t` whose wrap-around matters for
arbitrary operation sequences, so it is modelled modulo `2 ^ 64`.
-/

namespace Vocbase

/-! ## Association-list model of `std::unordered_map` -/

/-- `find` on an unordered map: first entry with the given key, if any. -/
def mfind {κ α : Type} [DecidableEq κ] (k : κ) : List (κ × α) → Option α
  | [] => none
  | p :: rest => if p.1 = k then some p.2 else mfind k rest

/-- `erase(key)` on an unordered map: removes the entry with the given key
(with pairwise distinct keys there is at most one). -/
def merase {κ α : Type} [DecidableEq κ] (k : κ) : List (κ × α) → List (κ × α)
  | [] => []
  | p :: rest => if p.1 = k then merase k rest else p :: merase k rest

/-- `emplace(key, value)`: inserts only if the key is absent; the `Bool` is the
`second` of the returned pair (whether insertion took place). -/
def memplace {κ α : Type} [DecidableEq κ] (k : κ) (v : α) (m : List (κ × α)) :
    Bool × List (κ × α) :=
  match mfind k m with
  | some _ => (false, m)
  | none => (true, (k, v) :: m)

/-- In-place mutation of the object stored under key `k` (all indices share
the object via `shared_ptr`, so mutating the object updates what every map
entry with that object shows). -/
def mupdate {κ α : Type} [DecidableEq κ] (k : κ) (v : α) : List (κ × α) → List (κ × α)
  | [] => []
  | p :: rest => if p.1 = k then (k, v) :: mupdate k v rest else p :: mupdate k v rest

/-- The keys of a map, in storage order. -/
def mkeys {κ α : Type} (m : List (κ × α)) : List κ := m.map Prod.fst

section MapLemmas

variable {κ α : Type} [DecidableEq κ]

theorem mem_merase {k : κ} {m : List (κ × α)} {p : κ × α} :
    p ∈ merase k m ↔ p ∈ m ∧ p.1 ≠ k := by
  induction m with
  | nil => simp [merase]
  | cons q rest ih =>
    by_cases hq : q.1 = k
    · simp only [merase, if_pos hq, ih, List.mem_cons]
      constructor
      · rintro ⟨hp, hne⟩; exact ⟨Or.inr hp, hne⟩
      · rintro ⟨hp | hp, hne⟩
        · subst hp; exact absurd hq hne
        · exact ⟨hp, hne⟩
    · simp only [merase, if_neg hq, List.mem_cons, ih]
      constructor
      · rintro (rfl | ⟨hp, hne⟩)
        · exact ⟨Or.inl rfl, hq⟩
        · exact ⟨Or.inr hp, hne⟩
      · rintro ⟨rfl | hp, hne⟩
        · exact Or.inl rfl
        · exact Or.inr ⟨hp, hne⟩

theorem mfind_eq_none {k : κ} {m : List (κ × α)} :
    mfind k m = none ↔ ∀ p ∈ m, p.1 ≠ k := by
  induction m with
  | nil => simp [mfind]
  | cons q rest ih =>
    by_cases hq : q.1 = k
    · simp [mfind, hq]
    · simp [mfind, hq, ih]

theorem mfind_some_mem {k : κ} {m : List (κ × α)} {v : α}
    (h : mfind k m = some v) : (k, v) ∈ m := by
  induction m with
  | nil => simp [mfind] at h
  | cons q rest ih =>
    by_cases hq : q.1 = k
    · simp only [mfind, if_pos hq, Option.some.injEq] at h
      subst h
      have : q = (k, q.2) := by rw [← hq]
      rw [← this]; exact List.mem_cons_self q rest
    · simp only [mfind, if_neg hq] at h
      exact List.mem_cons_of_mem q (ih h)

theorem merase_of_mfind_none {k : κ} {m : List (κ × α)}
    (h : mfind k m = none) : merase k m = m := by
  induction m with
  | nil => rfl
  | cons q rest ih =>
    by_cases hq : q.1 = k
    · simp [mfind, hq] at h
    · simp only [mfind, if_neg hq] at h
      simp [merase, hq, ih h]

theorem mkeys_mupdate {k : κ} {v : α} {m : List (κ × α)} :
    mkeys (mupdate k v m) = mkeys m := by
  induction m with
  | nil => rfl
  | cons q rest ih =>
    by_cases hq : q.1 = k
    · simp [mupdate, mkeys, hq, if_pos hq] at ih ⊢
      exact ih
    · simp [mupdate, mkeys, if_neg hq] at ih ⊢
      exact ih

theorem mem_mupdate {k : κ} {v : α} {m : List (κ × α)} {p : κ × α} :
    p ∈ mupdate k v m ↔ (p = (k, v) ∧ ∃ q ∈ m, q.1 = k) ∨ (p ∈ m ∧ p.1 ≠ k) := by
  induction m with
  | nil => simp [mupdate]
  | cons q rest ih =>
    by_cases hq : q.1 = k
    · simp only [mupdate, if_pos hq, List.mem_cons, ih]
      constructor
      · rintro (rfl | h)
        · exact Or.inl ⟨rfl, q, Or.inl rfl, hq⟩
        · rcases h with ⟨rfl, r, hr, hrk⟩ | ⟨hp, hpk⟩
          · exact Or.inl ⟨rfl, r, Or.inr hr, hrk⟩
          · exact Or.inr ⟨Or.inr hp, hpk⟩
      · rintro (⟨rfl, _⟩ | ⟨rfl | hp, hpk⟩)
        · exact Or.inl rfl
        · exact absurd hq hpk
        · exact Or.inr (Or.inr ⟨hp, hpk⟩)
    · simp only [mupdate, if_neg hq, List.mem_cons, ih]
      constructor
      · rintro (rfl | h)
        · exact Or.inr ⟨Or.inl rfl, hq⟩
        · rcases h with ⟨rfl, r, hr, hrk⟩ | ⟨hp, hpk⟩
          · exact Or.inl ⟨rfl, r, Or.inr hr, hrk⟩
          · exact Or.inr ⟨Or.inr hp, hpk⟩
      · rintro (⟨rfl, r, hr | hr, hrk⟩ | ⟨rfl | hp, hpk⟩)
        · subst hr; exact absurd hrk hq
        · exact Or.inr (Or.inl ⟨rfl, r, hr, hrk⟩)
        · exact Or.inl rfl
        · exact Or.inr (Or.inr ⟨hp, hpk⟩)

theorem mem_mkeys {m : List (κ × α)} {x : κ} :
    x ∈ mkeys m ↔ ∃ p ∈ m, p.1 = x := by
  simp [mkeys, List.mem_map]

theorem mkeys_nodup_merase {k : κ} {m : List (κ × α)}
    (h : (mkeys m).Nodup) : (mkeys (merase k m)).Nodup := by
  induction m with
  | nil => simp [merase, mkeys]
  | cons q rest ih =>
    simp only [mkeys, List.map_cons, List.nodup_cons] at h
    by_cases hq : q.1 = k
    · simpa [merase, if_pos hq] using ih h.2
    · simp only [merase, if_neg hq, mkeys, List.map_cons, List.nodup_cons]
      refine ⟨fun hmem => ?_, ih h.2⟩
      obtain ⟨p, hp, hpk⟩ := mem_mkeys.mp hmem
      exact h.1 (List.mem_map.mpr ⟨p, (mem_merase.mp hp).1, hpk⟩)

theorem mkeys_merase_sub {k : κ} {m : List (κ × α)} {x : κ}
    (h : x ∈ mkeys (merase k m)) : x ∈ mkeys m := by
  obtain ⟨p, hp, hpk⟩ := mem_mkeys.mp h
  exact mem_mkeys.mpr ⟨p, (mem_merase.mp hp).1, hpk⟩

/-- With pairwise distinct keys, two entries under the same key coincide. -/
theorem key_inj {m : List (κ × α)} (hnd : (mkeys m).Nodup)
    {k : κ} {a b : α} (ha : (k, a) ∈ m) (hb : (k, b) ∈ m) : a = b := by
  induction m with
  | nil => simp at ha
  | cons q rest ih =>
    simp only [mkeys, List.map_cons, List.nodup_cons] at hnd
    rcases List.mem_cons.mp ha with ha | ha
    · rcases List.mem_cons.mp hb with hb | hb
      · have h2 : ((k, a) : κ × α) = (k, b) := ha.trans hb.symm
        exact (Prod.ext_iff.mp h2).2
      · have hk : k ∈ rest.map Prod.fst := List.mem_map.mpr ⟨(k, b), hb, rfl⟩
        rw [← ha] at hnd
        exact absurd hk hnd.1
    · rcases List.mem_cons.mp hb with hb | hb
      · have hk : k ∈ rest.map Prod.fst := List.mem_map.mpr ⟨(k, a), ha, rfl⟩
        rw [← hb] at hnd
        exact absurd hk hnd.1
      · exact ih hnd.2 ha hb

theorem mfind_of_mem {m : List (κ × α)} (hnd : (mkeys m).Nodup)
    {k : κ} {a : α} (ha : (k, a) ∈ m) : mfind k m = some a := by
  induction m with
  | nil => simp at ha
  | cons q rest ih =>
    simp only [mkeys, List.map_cons, List.nodup_cons] at hnd
    rcases List.mem_cons.mp ha with ha | ha
    · rw [← ha]; simp [mfind]
    · have hq : q.1 ≠ k := by
        intro hqk
        exact hnd.1 (List.mem_map.mpr ⟨(k, a), ha, hqk.symm⟩)
      simp only [mfind, if_neg hq]
      exact ih hnd.2 ha

/-- Counting through an injection: if `f` maps the entries of `l₁` into `l₂`
without collisions, `l₁` is no longer than `l₂`. -/
theorem length_le_of_maps_into {α β : Type} {l₁ : List α} {l₂ : List β} {f : α → β}
    (hnd : (l₁.map f).Nodup) (hmem : ∀ x ∈ l₁, f x ∈ l₂) :
    l₁.length ≤ l₂.length := by
  have hsub : l₁.map f ⊆ l₂ := by
    intro y hy
    obtain ⟨x, hx, rfl⟩ := List.mem_map.mp hy
    exact hmem x hx
  have := (hnd.subperm hsub).length_le
  simpa using this

end MapLemmas

/-! ## Data model -/

/-- `LogicalDataSource::Category`: the category tag distinguishing
`LogicalCollection` from `LogicalView`. -/
inductive Category : Type
  | collection
  | view
deriving DecidableEq

/-- The data of one `LogicalDataSource` as far as the registry reads it:
`id()`, `name()`, `globallyUniqueId()`, `category()` and `isSystem()`.
`isSystem` is kept as a flag: `LogicalCollection::isSystem()` lives outside
the sources at hand and the registry only branches on its boolean result. -/
structure Obj : Type where
  id : Nat
  name : String
  uuid : String
  cat : Category
  isSys : Bool
deriving DecidableEq

/-- The three indices `_dataSourceByName`, `_dataSourceById`,
`_dataSourceByUuid` of `TRI_vocbase_t`. -/
structure RegState : Type where
  byName : List (String × Obj)
  byId : List (Nat × Obj)
  byUuid : List (String × Obj)
deriving DecidableEq

/-- The registry of a freshly constructed `TRI_vocbase_t`: all maps empty. -/
def regInit : RegState := ⟨[], [], []⟩

/-! Error codes from `lib/Basics/voc-errors.h` (values as in the error header;
only their distinctness matters to the claims). -/

def TRI_ERROR_NO_ERROR : Nat := 0
def TRI_ERROR_INTERNAL : Nat := 4
def TRI_ERROR_FORBIDDEN : Nat := 11
def TRI_ERROR_LOCK_TIMEOUT : Nat := 18
def TRI_ERROR_ARANGO_DATA_SOURCE_NOT_FOUND : Nat := 1203
def TRI_ERROR_ARANGO_DUPLICATE_NAME : Nat := 1207
def TRI_ERROR_ARANGO_ILLEGAL_NAME : Nat := 1208
def TRI_ERROR_ARANGO_DUPLICATE_IDENTIFIER : Nat := 1213

/-- `TRI_vocbase_t::checkCollectionInvariants`: the assertion run after every
registry mutation. -/
def checkCollectionInvariants (s : RegState) : Prop :=
  s.byName.length = s.byId.length ∧ s.byUuid.length ≤ s.byId.length

instance (s : RegState) : Decidable (checkCollectionInvariants s) := by
  unfold checkCollectionInvariants; infer_instance

/-! ## Registration and unregistration (`vocbase.cpp` lines 237-382) -/

/-- `TRI_vocbase_t::registerCollection`.  Inserts into by-name, then by-id,
then by-uuid, rolling back the earlier inserts when a later one hits a
duplicate.  A thrown error code is returned as `some code`.  The C++ parameter
is statically a `LogicalCollection`, so the category tag is `collection`. -/
def registerCollection (s : RegState) (c0 : Obj) : Option Nat × RegState :=
  let c := { c0 with cat := Category.collection }
  match memplace c.name c s.byName with
  | (false, _) => (some TRI_ERROR_ARANGO_DUPLICATE_NAME, s)
  | (true, bn) =>
    match memplace c.id c s.byId with
    | (false, _) =>
      -- catch-all: erase the by-name entry, rethrow the duplicate error
      (some TRI_ERROR_ARANGO_DUPLICATE_IDENTIFIER, { s with byName := merase c.name bn })
    | (true, bi) =>
      match memplace c.uuid c s.byUuid with
      | (false, _) =>
        (some TRI_ERROR_ARANGO_DUPLICATE_IDENTIFIER,
         { byName := merase c.name bn, byId := merase c.id bi, byUuid := s.byUuid })
      | (true, bu) => (none, ⟨bn, bi, bu⟩)

/-- `TRI_vocbase_t::registerView`: inserts into by-name then by-id only (views
never get a by-uuid entry), rolling back by-name when by-id hits a duplicate. -/
def registerView (s : RegState) (v0 : Obj) : Option Nat × RegState :=
  let v := { v0 with cat := Category.view }
  match memplace v.name v s.byName with
  | (false, _) => (some TRI_ERROR_ARANGO_DUPLICATE_NAME, s)
  | (true, bn) =>
    match memplace v.id v s.byId with
    | (false, _) =>
      (some TRI_ERROR_ARANGO_DUPLICATE_IDENTIFIER, { s with byName := merase v.name bn })
    | (true, bi) => (none, { s with byName := bn, byId := bi })

/-- `TRI_vocbase_t::unregisterCollection`.  The C++ argument is a pointer to a
`LogicalCollection`; the registry stores shared pointers to the same object
and collection ids are allocated from a monotone tick and never reused, so
whenever the by-id lookup succeeds it yields the very object the caller
passed.  The name/uuid erases, written in the source against the argument's
`name()`/`globallyUniqueId()`, are therefore keyed off the object found by id.
Returns `true` (no-op success) when the id is absent or maps to a view. -/
def unregisterCollection (s : RegState) (cid : Nat) : Bool × RegState :=
  match mfind cid s.byId with
  | none => (true, s)
  | some o =>
    if o.cat ≠ Category.collection then (true, s)
    else
      (true,
       { byName := merase o.name s.byName,
         byId := merase cid s.byId,
         byUuid := merase o.uuid s.byUuid })

/-- `TRI_vocbase_t::unregisterView`: like `unregisterCollection` but expects a
view under the id and never touches the by-uuid index. -/
def unregisterView (s : RegState) (vid : Nat) : Bool × RegState :=
  match mfind vid s.byId with
  | none => (true, s)
  | some o =>
    if o.cat ≠ Category.view then (true, s)
    else
      (true,
       { s with byName := merase o.name s.byName, byId := merase vid s.byId })

/-- The map-clearing step of `TRI_vocbase_t::shutdown`: all three indices are
cleared under the exclusive lock. -/
def shutdownClear (_s : RegState) : RegState := ⟨[], [], []⟩

/-! ## Name validation (`TRI_vocbase_t::IsAllowedName`, `IsSystemName`) -/

/-- Maximum data-source name length, `TRI_COL_NAME_LENGTH` from the VocBase
headers (constant not under the sources at hand; its exact value is irrelevant
to every claim, which only use short names). -/
def TRI_COL_NAME_LENGTH : Nat := 64

/-- First-character check of `IsAllowedName`: a letter, or an underscore when
system names are allowed. -/
def allowedFirstChar (allowSystem : Bool) (ch : Char) : Bool :=
  (allowSystem && ch == '_')
    || ('a' ≤ ch && ch ≤ 'z') || ('A' ≤ ch && ch ≤ 'Z')

/-- Later-character check of `IsAllowedName`: letter, digit, underscore or
dash. -/
def allowedLaterChar (ch : Char) : Bool :=
  ch == '_' || ch == '-' || ('0' ≤ ch && ch ≤ '9')
    || ('a' ≤ ch && ch ≤ 'z') || ('A' ≤ ch && ch ≤ 'Z')

/-- `TRI_vocbase_t::IsAllowedName(allowSystem, name)`: character-wise
validation plus the length bounds (nonempty, at most `TRI_COL_NAME_LENGTH`). -/
def IsAllowedName (allowSystem : Bool) (name : String) : Bool :=
  match name.toList with
  | [] => false
  | ch :: rest =>
    allowedFirstChar allowSystem ch
      && rest.all allowedLaterChar
      && name.length ≤ TRI_COL_NAME_LENGTH

/-- `TRI_vocbase_t::IsSystemName`: nonempty and starting with an underscore. -/
def IsSystemName (name : String) : Bool :=
  match name.toList with
  | [] => false
  | ch :: _ => ch == '_'

/-! ## Lookups (`vocbase.cpp` lines 1030-1180) -/

/-- `lookupDataSource(TRI_voc_cid_t)`. -/
def lookupDataSourceById (s : RegState) (id : Nat) : Option Obj :=
  mfind id s.byId

/-- Model of `NumberUtils::atoi<TRI_voc_cid_t>` as `lookupDataSource` uses
it: an all-digit string parses to the number it denotes, anything else
signals failure.  (Overflow of the 64-bit id is not modelled; no claim
exercises it.) -/
def atoiNat (str : String) : Option Nat :=
  let cs := str.toList
  if cs.isEmpty || !cs.all Char.isDigit then none
  else some (cs.foldl (fun acc ch => 10 * acc + (ch.toNat - 48)) 0)

/-- `lookupDataSource(std::string)`: empty string fails; a string of digits is
treated as a stringified id (`NumberUtils::atoi`); otherwise by-name, then
by-uuid. -/
def lookupDataSource (s : RegState) (nameOrId : String) : Option Obj :=
  if nameOrId.isEmpty then none
  else
    match atoiNat nameOrId with
    | some id => lookupDataSourceById s id
    | none =>
      match mfind nameOrId s.byName with
      | some o => some o
      | none => mfind nameOrId s.byUuid

/-- `lookupView(std::string)`, single-server role: a data-source lookup that
only answers for views. -/
def lookupView (s : RegState) (nameOrId : String) : Option Obj :=
  match lookupDataSource s nameOrId with
  | some o => if o.cat = Category.view then some o else none
  | none => none

/-! ## Dropping views (`vocbase.cpp` lines 1713-1800) -/

/-- `TRI_vocbase_t::dropView(std::shared_ptr<LogicalView>)`, single-server
role: acquires the inventory lock and the dual registry/object locks,
invalidates query caches, calls `view->drop()` (void), unregisters the view,
and always returns `TRI_ERROR_NO_ERROR`. -/
def dropViewObj (s : RegState) (v : Obj) : Nat × RegState :=
  (TRI_ERROR_NO_ERROR, (unregisterView s v.id).2)

/-- `TRI_vocbase_t::dropView(std::string)`: looks the view up by name and
reports `TRI_ERROR_ARANGO_DATA_SOURCE_NOT_FOUND` when there is none. -/
def dropViewByName (s : RegState) (name : String) : Nat × RegState :=
  match lookupView s name with
  | none => (TRI_ERROR_ARANGO_DATA_SOURCE_NOT_FOUND, s)
  | some v => dropViewObj s v

/-! ## Renaming (`vocbase.cpp` lines 1325-1518)

Persistence-facing calls are represented by their result codes, passed in as
oracle inputs: `persistRes` for `view->rename(...)` / `collection->rename(...)`
(the `LogicalDataSource`-level rename that stores the parameters on disk and,
on success, changes the object's `name()`; on failure the spec's rollback
contract leaves the old name in place), and `engineRes` for
`engine->renameView(...)` / `engine->renameCollection(...)`.  `0` means
success.  Lock acquisitions and persistence calls are recorded in an event
trace so that "returns without taking the locks / without calling persistence"
is a provable statement. -/

/-- Observable effects of a rename call. -/
inductive REvent : Type
  | lockInventory
  | lockRegistry
  | persistRename
  | engineRename
deriving DecidableEq

/-- Result of a rename call: error code, resulting registry, event trace. -/
structure RenameOut : Type where
  code : Nat
  reg : RegState
  events : List REvent
deriving DecidableEq

/-- `TRI_vocbase_t::renameView(view, newName)`.  Faithful to the source,
including its two anomalies: the old-name lookup succeeds only when the found
data source is NOT a view (the guard reads `LogicalView::category() ==
itr1->second->category()` where the assertion just below it expects a view),
and a failing `view->rename(...)` returns its error without undoing the
by-name key swap that already happened. -/
def renameView (s : RegState) (view : Obj) (newName : String)
    (persistRes : Nat) (engineRes : Nat) : RenameOut :=
  let oldName := view.name
  -- check if names are actually different
  if oldName = newName then ⟨TRI_ERROR_NO_ERROR, s, []⟩
  else if ¬ IsAllowedName (IsSystemName newName) newName then
    ⟨TRI_ERROR_ARANGO_ILLEGAL_NAME, s, []⟩
  else
    let events := [REvent.lockInventory, REvent.lockRegistry]
    -- check for duplicate name
    match mfind newName s.byName with
    | some _ => ⟨TRI_ERROR_ARANGO_DUPLICATE_NAME, s, events⟩
    | none =>
      match mfind oldName s.byName with
      | none => ⟨TRI_ERROR_ARANGO_DATA_SOURCE_NOT_FOUND, s, events⟩
      | some itr1 =>
        if Category.view = itr1.cat then
          ⟨TRI_ERROR_ARANGO_DATA_SOURCE_NOT_FOUND, s, events⟩
        else
          -- emplace the new key, erase the old one, then persist; a
          -- successful view->rename mutates the shared object, so its new
          -- name shows through every index entry holding that pointer -
          -- besides the new by-name key, the by-id entry under the view's
          -- id, when present (ids are never reused, so that entry can only
          -- be this view); on failure the stored record is the object's
          -- unchanged state and the update is inert
          let stored := if persistRes = 0 then { view with name := newName } else view
          let bn := (newName, stored) :: merase oldName s.byName
          let s1 : RegState := { s with byName := bn, byId := mupdate view.id stored s.byId }
          let events := events ++ [REvent.persistRename]
          if persistRes ≠ 0 then ⟨persistRes, s1, events⟩  -- rename failed, no rollback
          else ⟨engineRes, s1, events ++ [REvent.engineRename]⟩

/-- `TRI_vocbase_t::renameCollection(collection, newName, doOverride)`.
Faithful to the source, including the dropped error of the persistence-facing
`collection->rename(...)`: its result is consumed by a bare
`res.errorNumber();` statement with no `return`, so on failure the function
still swaps the by-name keys and reports the storage engine's result. -/
def renameCollection (s : RegState) (collection : Obj) (newName : String)
    (doOverride : Bool) (persistRes : Nat) (engineRes : Nat) : RenameOut :=
  if collection.isSys then ⟨TRI_ERROR_FORBIDDEN, s, []⟩
  else
    let oldName := collection.name
    -- check if names are actually different
    if oldName = newName then ⟨TRI_ERROR_NO_ERROR, s, []⟩
    else if ¬ doOverride ∧
        ((IsSystemName oldName ∧ ¬ IsSystemName newName)
          ∨ (¬ IsSystemName oldName ∧ IsSystemName newName)
          ∨ ¬ IsAllowedName (IsSystemName oldName) newName) then
      ⟨TRI_ERROR_ARANGO_ILLEGAL_NAME, s, []⟩
    else
      let events := [REvent.lockInventory, REvent.lockRegistry]
      -- check for duplicate name
      match mfind newName s.byName with
      | some _ => ⟨TRI_ERROR_ARANGO_DUPLICATE_NAME, s, events⟩
      | none =>
        match mfind oldName s.byName with
        | none => ⟨TRI_ERROR_ARANGO_DATA_SOURCE_NOT_FOUND, s, events⟩
        | some itr1 =>
          if Category.collection ≠ itr1.cat then
            ⟨TRI_ERROR_ARANGO_DATA_SOURCE_NOT_FOUND, s, events⟩
          else
            -- collection->rename(newName, doSync): on success the shared
            -- object's name changes everywhere it is stored; on failure its
            -- error number is discarded (missing return in the source)
            let stored := if persistRes = 0 then { itr1 with name := newName } else itr1
            let bn := (newName, stored) :: merase oldName s.byName
            let s1 : RegState :=
              { byName := bn,
                byId := mupdate itr1.id stored s.byId,
                byUuid := mupdate itr1.uuid stored s.byUuid }
            let events := events ++ [REvent.persistRename, REvent.engineRename]
            ⟨engineRes, s1, events⟩

/-! ## The database reference counter (`vocbase.cpp` lines 160-225)

`_refCount` is an atomic `uint64_t`: even values are `2 * (number of active
users)`, an odd value additionally carries the "marked as deleted" bit.
Arithmetic is modulo `2 ^ 64` (unsigned wrap-around, which matters for
`fetch_sub` on small values in release builds). -/

def REFCOUNT_MOD : Nat := 2 ^ 64

/-- `TRI_vocbase_t::use()`: the CAS loop fails (returning `false`, without
mutating the counter) as soon as the deleted bit is seen; otherwise it adds 2. -/
def vocbaseUse (v : Nat) : Bool × Nat :=
  if v % 2 = 1 then (false, v) else (true, (v + 2) % REFCOUNT_MOD)

/-- `TRI_vocbase_t::release()`: `fetch_sub(2)` (the source asserts the prior
value was at least 2; the unsigned subtraction itself wraps).  The wrapped
value `(v - 2) mod 2^64` is written with the constant summand first,
`(2^64 - 2) + v`, which is the same number. -/
def vocbaseRelease (v : Nat) : Nat :=
  (REFCOUNT_MOD - 2 + v) % REFCOUNT_MOD

/-- `TRI_vocbase_t::markAsDropped()`: `fetch_or(1)`; returns whether this call
set the bit. -/
def vocbaseMarkAsDropped (v : Nat) : Bool × Nat :=
  (v % 2 = 0, v ||| 1)

/-- `TRI_vocbase_t::isDangling()`: system databases never dangle; otherwise
the counter must be exactly 1 (deleted, and zero active users). -/
def vocbaseIsDangling (isSys : Bool) (v : Nat) : Bool :=
  !isSys && v == 1

/-- `TRI_vocbase_t::isDropped()`: the stored value is odd. -/
def vocbaseIsDropped (v : Nat) : Bool :=
  v % 2 == 1

/-- One mutating operation on the reference counter. -/
inductive RcOp : Type
  | use
  | release
  | markAsDropped
deriving DecidableEq

/-- State transition of a single counter operation. -/
def rcStep (v : Nat) : RcOp → Nat
  | RcOp.use => (vocbaseUse v).2
  | RcOp.release => vocbaseRelease v
  | RcOp.markAsDropped => (vocbaseMarkAsDropped v).2

/-- Run a sequence of counter operations. -/
def rcRun (v : Nat) (ops : List RcOp) : Nat :=
  ops.foldl rcStep v

/-- `use()` applied `n` times in a row (state only). -/
def rcUseN : Nat → Nat → Nat
  | 0, v => v
  | n + 1, v => rcUseN n (vocbaseUse v).2

/-- Whether `n` consecutive `use()` calls all succeed. -/
def rcUseNOk : Nat → Nat → Bool
  | 0, _ => true
  | n + 1, v => (vocbaseUse v).1 && rcUseNOk n (vocbaseUse v).2

/-- `release()` applied `n` times in a row. -/
def rcReleaseN : Nat → Nat → Nat
  | 0, v => v
  | n + 1, v => rcReleaseN n (vocbaseRelease v)

/-! ## Collection status and the drop worker (`vocbase.cpp` lines 681-830)

`dropCollectionWorker` first acquires the registry write lock and the
collection's status lock through a try/backoff loop, then branches on the
collection's status.  The storage-facing calls are oracles:
`changeRes` is the outcome of `engine->changeCollection(...)` in the UNLOADED
branch (`0` = no exception, otherwise the exception's error code), and
`updateRes` the outcome of `collection->updateProperties(...)` in the
LOADED/UNLOADING branch (`res.errorNumber()`). -/

/-- `TRI_vocbase_col_status_e`. -/
inductive ColStatus : Type
  | unloaded
  | loading
  | loaded
  | unloading
  | deleted
  | corrupted
deriving DecidableEq

/-- `TRI_vocbase_t::DropState`. -/
inductive DropState : Type
  | dropExit
  | dropAgain
  | dropPerform
deriving DecidableEq

/-- Outcome of one `dropCollectionWorker` attempt: returned error code, the
collection's status and `deleted` flag afterwards, the registry afterwards,
and the `state` out-parameter. -/
structure DropOut : Type where
  code : Nat
  status : ColStatus
  deletedFlag : Bool
  reg : RegState
  dropState : DropState
deriving DecidableEq

/-- The status `switch` of `dropCollectionWorker`, entered once both locks are
held.  `c` is the collection (registered or not), `status` its status and
`deletedFlag` its `deleted()` flag at that moment. -/
def dropCollectionWorkerBody (s : RegState) (c : Obj) (status : ColStatus)
    (deletedFlag : Bool) (changeRes : Nat) (updateRes : Nat) : DropOut :=
  match status with
  | ColStatus.deleted =>
    -- collection already deleted: unregister and report success
    ⟨TRI_ERROR_NO_ERROR, ColStatus.deleted, deletedFlag,
     (unregisterCollection s c.id).2, DropState.dropExit⟩
  | ColStatus.loading =>
    -- try again later
    ⟨TRI_ERROR_NO_ERROR, ColStatus.loading, deletedFlag, s, DropState.dropAgain⟩
  | ColStatus.unloaded =>
    if ¬ deletedFlag then
      if changeRes ≠ 0 then
        -- engine->changeCollection threw: roll the deleted flag back
        ⟨changeRes, ColStatus.unloaded, false, s, DropState.dropExit⟩
      else
        ⟨TRI_ERROR_NO_ERROR, ColStatus.deleted, true,
         (unregisterCollection s c.id).2, DropState.dropExit⟩
    else
      ⟨TRI_ERROR_NO_ERROR, ColStatus.deleted, deletedFlag,
       (unregisterCollection s c.id).2, DropState.dropExit⟩
  | ColStatus.loaded | ColStatus.unloading =>
    -- deleted flag is set first, then updateProperties persists the change;
    -- on failure the error is returned with the flag still set
    if updateRes ≠ 0 then
      ⟨updateRes, status, true, s, DropState.dropExit⟩
    else
      ⟨TRI_ERROR_NO_ERROR, ColStatus.deleted, true,
       (unregisterCollection s c.id).2, DropState.dropPerform⟩
  | ColStatus.corrupted =>
    -- unknown status for the switch: internal error
    ⟨TRI_ERROR_INTERNAL, ColStatus.corrupted, deletedFlag, s, DropState.dropExit⟩

/-- Result of the dual-lock acquisition loop at the top of
`dropCollectionWorker`. -/
inductive DropLoopResult : Type
  | timedOut
  | locked
deriving DecidableEq

/-- The try/backoff loop of `dropCollectionWorker`: at attempt `i` the
registry write lock is acquired (blocking), then `locker.tryLock()` on the
collection's status lock returns `tryLock i`; on failure both locks are
released and, if the timeout is non-negative (`nonneg`) and already exceeded
at this attempt (`exceeded i`), the loop gives up.  `fuel` bounds the number
of modelled attempts (the source loops until one of the two exits). -/
def dropLockLoop (tryLock : Nat → Bool) (nonneg : Bool) (exceeded : Nat → Bool) :
    Nat → Nat → Option DropLoopResult
  | 0, _ => none
  | fuel + 1, i =>
    if tryLock i then some DropLoopResult.locked
    else if nonneg && exceeded i then some DropLoopResult.timedOut
    else dropLockLoop tryLock nonneg exceeded fuel (i + 1)

/-- `TRI_vocbase_t::dropCollectionWorker`: lock-acquisition loop followed by
the status switch.  Returns `none` when the model's fuel runs out before the
loop exits. -/
def dropCollectionWorker (s : RegState) (c : Obj) (status : ColStatus)
    (deletedFlag : Bool) (changeRes : Nat) (updateRes : Nat)
    (tryLock : Nat → Bool) (nonneg : Bool) (exceeded : Nat → Bool) (fuel : Nat) :
    Option DropOut :=
  match dropLockLoop tryLock nonneg exceeded fuel 0 with
  | none => none
  | some DropLoopResult.timedOut =>
    -- timeout while contending: nothing has been mutated yet
    some ⟨TRI_ERROR_LOCK_TIMEOUT, status, deletedFlag, s, DropState.dropExit⟩
  | some DropLoopResult.locked =>
    some (dropCollectionWorkerBody s c status deletedFlag changeRes updateRes)

/-! ## Sequences of registry mutations

The mutations of claim C1, each applied the way `vocbase.cpp` performs it.
`unregCol`/`unregView`/`renCol`/`renView` act on the object registered under
the given id — which is how every call site passes them (the caller holds the
registered shared pointer; ids are never reused).  The rename mutations carry
the result codes of their persistence-facing calls (`0` = success), exactly
like the rename models themselves, so failing renames are part of the
sequence space. -/

inductive RegOp : Type
  | regCol (c : Obj)
  | regView (v : Obj)
  | unregCol (cid : Nat)
  | unregView (vid : Nat)
  | renCol (cid : Nat) (newName : String) (doOverride : Bool)
      (persistRes : Nat) (engineRes : Nat)
  | renView (vid : Nat) (newName : String) (persistRes : Nat) (engineRes : Nat)
  | clear

/-- Effect of one registry mutation on the three indices. -/
def regStep (s : RegState) : RegOp → RegState
  | RegOp.regCol c => (registerCollection s c).2
  | RegOp.regView v => (registerView s v).2
  | RegOp.unregCol cid => (unregisterCollection s cid).2
  | RegOp.unregView vid => (unregisterView s vid).2
  | RegOp.renCol cid newName dov pr er =>
    match mfind cid s.byId with
    | some c =>
      if c.cat = Category.collection then (renameCollection s c newName dov pr er).reg else s
    | none => s
  | RegOp.renView vid newName pr er =>
    match mfind vid s.byId with
    | some v =>
      if v.cat = Category.view then (renameView s v newName pr er).reg else s
    | none => s
  | RegOp.clear => shutdownClear s

/-- Registry state after a sequence of mutations from the fresh registry. -/
def regRun (s : RegState) (ops : List RegOp) : RegState :=
  ops.foldl regStep s

/-- Whether a mutation's persistence-facing rename succeeds.  Only a
collection rename with a failing `collection->rename(...)` escapes the
invariant machinery below: through the missing-return slip (the subject of
claim C3) it swaps the by-name key while the object keeps its old name. -/
def renamePersistOk : RegOp → Prop
  | RegOp.renCol _ _ _ pr _ => pr = 0
  | _ => True

/-- The inductive invariant of the three-index registry: keys match the
stored objects' fields, keys are pairwise distinct, by-name and by-id hold
exactly the same objects, and by-uuid holds exactly the collections of by-id. -/
structure RichInv (s : RegState) : Prop where
  nameKeys : ∀ p ∈ s.byName, (p.2 : Obj).name = p.1
  idKeys : ∀ p ∈ s.byId, (p.2 : Obj).id = p.1
  uuidKeys : ∀ p ∈ s.byUuid, (p.2 : Obj).uuid = p.1
  uuidCat : ∀ p ∈ s.byUuid, (p.2 : Obj).cat = Category.collection
  nameNodup : (mkeys s.byName).Nodup
  idNodup : (mkeys s.byId).Nodup
  uuidNodup : (mkeys s.byUuid).Nodup
  nameToId : ∀ p ∈ s.byName, ((p.2 : Obj).id, p.2) ∈ s.byId
  idToName : ∀ p ∈ s.byId, ((p.2 : Obj).name, p.2) ∈ s.byName
  idToUuid : ∀ p ∈ s.byId, (p.2 : Obj).cat = Category.collection →
    ((p.2 : Obj).uuid, p.2) ∈ s.byUuid
  uuidToId : ∀ p ∈ s.byUuid, ((p.2 : Obj).id, p.2) ∈ s.byId

theorem richInv_init : RichInv regInit := by
  constructor <;> simp [regInit, mkeys]

/-- The checked count invariant follows from the inductive invariant. -/
theorem checkCollectionInvariants_of_richInv {s : RegState} (h : RichInv s) :
    checkCollectionInvariants s := by
  have hNameEntries : s.byName.Nodup := List.Nodup.of_map _ h.nameNodup
  have hIdEntries : s.byId.Nodup := List.Nodup.of_map _ h.idNodup
  have hUuidEntries : s.byUuid.Nodup := List.Nodup.of_map _ h.uuidNodup
  have h1 : s.byName.length ≤ s.byId.length := by
    refine length_le_of_maps_into (f := fun p => ((p.2 : Obj).id, p.2)) ?_ ?_
    · refine List.Nodup.map_on ?_ hNameEntries
      intro p hp q hq hfg
      have h2 : p.2 = q.2 := (Prod.ext_iff.mp hfg).2
      have h1 : p.1 = q.1 := by
        rw [← h.nameKeys p hp, ← h.nameKeys q hq, h2]
      exact Prod.ext h1 h2
    · exact h.nameToId
  have h2 : s.byId.length ≤ s.byName.length := by
    refine length_le_of_maps_into (f := fun p => ((p.2 : Obj).name, p.2)) ?_ ?_
    · refine List.Nodup.map_on ?_ hIdEntries
      intro p hp q hq hfg
      have h2 : p.2 = q.2 := (Prod.ext_iff.mp hfg).2
      have h1 : p.1 = q.1 := by
        rw [← h.idKeys p hp, ← h.idKeys q hq, h2]
      exact Prod.ext h1 h2
    · exact h.idToName
  have h3 : s.byUuid.length ≤ s.byId.length := by
    refine length_le_of_maps_into (f := fun p => ((p.2 : Obj).id, p.2)) ?_ ?_
    · refine List.Nodup.map_on ?_ hUuidEntries
      intro p hp q hq hfg
      have h2 : p.2 = q.2 := (Prod.ext_iff.mp hfg).2
      have h1 : p.1 = q.1 := by
        rw [← h.uuidKeys p hp, ← h.uuidKeys q hq, h2]
      exact Prod.ext h1 h2
    · exact h.uuidToId
  exact ⟨le_antisymm h1 h2, h3⟩

/-! ### Characterizations of registration -/

/-- A failed `registerCollection` leaves the registry exactly as it was. -/
theorem registerCollection_fail_unchanged (s : RegState) (c0 : Obj) (e : Nat)
    (h : (registerCollection s c0).1 = some e) : (registerCollection s c0).2 = s := by
  unfold registerCollection memplace at h ⊢
  cases hn : mfind { c0 with cat := Category.collection }.name s.byName with
  | some o => simp [hn]
  | none =>
    cases hi : mfind { c0 with cat := Category.collection }.id s.byId with
    | some o =>
      have h1 : merase { c0 with cat := Category.collection }.name
          (({ c0 with cat := Category.collection }.name,
            { c0 with cat := Category.collection }) :: s.byName) = s.byName := by
        simp [merase, merase_of_mfind_none hn]
      simp [hn, hi, h1]
    | none =>
      cases hu : mfind { c0 with cat := Category.collection }.uuid s.byUuid with
      | some o =>
        have h1 : merase { c0 with cat := Category.collection }.name
            (({ c0 with cat := Category.collection }.name,
              { c0 with cat := Category.collection }) :: s.byName) = s.byName := by
          simp [merase, merase_of_mfind_none hn]
        have h2 : merase { c0 with cat := Category.collection }.id
            (({ c0 with cat := Category.collection }.id,
              { c0 with cat := Category.collection }) :: s.byId) = s.byId := by
          simp [merase, merase_of_mfind_none hi]
        simp [hn, hi, hu, h1, h2]
      | none => simp [hn, hi, hu] at h

/-- A failed `registerView` leaves the registry exactly as it was. -/
theorem registerView_fail_unchanged (s : RegState) (v0 : Obj) (e : Nat)
    (h : (registerView s v0).1 = some e) : (registerView s v0).2 = s := by
  unfold registerView memplace at h ⊢
  cases hn : mfind { v0 with cat := Category.view }.name s.byName with
  | some o => simp [hn]
  | none =>
    cases hi : mfind { v0 with cat := Category.view }.id s.byId with
    | some o =>
      have h1 : merase { v0 with cat := Category.view }.name
          (({ v0 with cat := Category.view }.name,
            { v0 with cat := Category.view }) :: s.byName) = s.byName := by
        simp [merase, merase_of_mfind_none hn]
      simp [hn, hi, h1]
    | none => simp [hn, hi] at h

/-! ### Preservation of the inductive invariant -/

theorem richInv_registerCollection {s : RegState} (h : RichInv s) (c0 : Obj) :
    RichInv (registerCollection s c0).2 := by
  by_cases hfail : ∃ e, (registerCollection s c0).1 = some e
  · obtain ⟨e, he⟩ := hfail
    rw [registerCollection_fail_unchanged s c0 e he]
    exact h
  · -- success: all three finds missed, the state gains one entry per index
    unfold registerCollection memplace at hfail ⊢
    cases hn : mfind { c0 with cat := Category.collection }.name s.byName with
    | some o => simp [hn] at hfail
    | none =>
    cases hi : mfind { c0 with cat := Category.collection }.id s.byId with
    | some o => simp [hn, hi] at hfail
    | none =>
    cases hu : mfind { c0 with cat := Category.collection }.uuid s.byUuid with
    | some o => simp [hn, hi, hu] at hfail
    | none =>
    simp only [hn, hi, hu]
    set c : Obj := { c0 with cat := Category.collection } with hc
    have hnotn : c.name ∉ mkeys s.byName := by
      intro hx
      obtain ⟨p, hp, hpk⟩ := mem_mkeys.mp hx
      exact (mfind_eq_none.mp hn p hp) hpk
    have hnoti : c.id ∉ mkeys s.byId := by
      intro hx
      obtain ⟨p, hp, hpk⟩ := mem_mkeys.mp hx
      exact (mfind_eq_none.mp hi p hp) hpk
    have hnotu : c.uuid ∉ mkeys s.byUuid := by
      intro hx
      obtain ⟨p, hp, hpk⟩ := mem_mkeys.mp hx
      exact (mfind_eq_none.mp hu p hp) hpk
    constructor
    · intro p hp0
      rcases List.mem_cons.mp hp0 with rfl | hp
      · rfl
      · exact h.nameKeys p hp
    · intro p hp0
      rcases List.mem_cons.mp hp0 with rfl | hp
      · rfl
      · exact h.idKeys p hp
    · intro p hp0
      rcases List.mem_cons.mp hp0 with rfl | hp
      · rfl
      · exact h.uuidKeys p hp
    · intro p hp0
      rcases List.mem_cons.mp hp0 with rfl | hp
      · rfl
      · exact h.uuidCat p hp
    · exact List.nodup_cons.mpr ⟨hnotn, h.nameNodup⟩
    · exact List.nodup_cons.mpr ⟨hnoti, h.idNodup⟩
    · exact List.nodup_cons.mpr ⟨hnotu, h.uuidNodup⟩
    · intro p hp0
      rcases List.mem_cons.mp hp0 with rfl | hp
      · exact List.mem_cons_self _ _
      · exact List.mem_cons_of_mem _ (h.nameToId p hp)
    · intro p hp0
      rcases List.mem_cons.mp hp0 with rfl | hp
      · exact List.mem_cons_self _ _
      · exact List.mem_cons_of_mem _ (h.idToName p hp)
    · intro p hp0 hcat
      rcases List.mem_cons.mp hp0 with rfl | hp
      · exact List.mem_cons_self _ _
      · exact List.mem_cons_of_mem _ (h.idToUuid p hp hcat)
    · intro p hp0
      rcases List.mem_cons.mp hp0 with rfl | hp
      · exact List.mem_cons_self _ _
      · exact List.mem_cons_of_mem _ (h.uuidToId p hp)

theorem richInv_registerView {s : RegState} (h : RichInv s) (v0 : Obj) :
    RichInv (registerView s v0).2 := by
  by_cases hfail : ∃ e, (registerView s v0).1 = some e
  · obtain ⟨e, he⟩ := hfail
    rw [registerView_fail_unchanged s v0 e he]
    exact h
  · unfold registerView memplace at hfail ⊢
    cases hn : mfind { v0 with cat := Category.view }.name s.byName with
    | some o => simp [hn] at hfail
    | none =>
    cases hi : mfind { v0 with cat := Category.view }.id s.byId with
    | some o => simp [hn, hi] at hfail
    | none =>
    simp only [hn, hi]
    set v : Obj := { v0 with cat := Category.view } with hv
    have hnotn : v.name ∉ mkeys s.byName := by
      intro hx
      obtain ⟨p, hp, hpk⟩ := mem_mkeys.mp hx
      exact (mfind_eq_none.mp hn p hp) hpk
    have hnoti : v.id ∉ mkeys s.byId := by
      intro hx
      obtain ⟨p, hp, hpk⟩ := mem_mkeys.mp hx
      exact (mfind_eq_none.mp hi p hp) hpk
    constructor
    · intro p hp0
      rcases List.mem_cons.mp hp0 with rfl | hp
      · rfl
      · exact h.nameKeys p hp
    · intro p hp0
      rcases List.mem_cons.mp hp0 with rfl | hp
      · rfl
      · exact h.idKeys p hp
    · exact h.uuidKeys
    · exact h.uuidCat
    · exact List.nodup_cons.mpr ⟨hnotn, h.nameNodup⟩
    · exact List.nodup_cons.mpr ⟨hnoti, h.idNodup⟩
    · exact h.uuidNodup
    · intro p hp0
      rcases List.mem_cons.mp hp0 with rfl | hp
      · exact List.mem_cons_self _ _
      · exact List.mem_cons_of_mem _ (h.nameToId p hp)
    · intro p hp0
      rcases List.mem_cons.mp hp0 with rfl | hp
      · exact List.mem_cons_self _ _
      · exact List.mem_cons_of_mem _ (h.idToName p hp)
    · intro p hp0 hcat
      rcases List.mem_cons.mp hp0 with rfl | hp
      · exact absurd hcat (by simp [hv])
      · exact h.idToUuid p hp hcat
    · intro p hp
      exact List.mem_cons_of_mem _ (h.uuidToId p hp)

/-- Shape of `unregisterCollection` when the id is absent or maps to a view:
a no-op reporting success. -/
theorem unregisterCollection_miss (s : RegState) (cid : Nat)
    (h : ∀ o, mfind cid s.byId = some o → o.cat ≠ Category.collection) :
    unregisterCollection s cid = (true, s) := by
  unfold unregisterCollection
  cases ho : mfind cid s.byId with
  | none => rfl
  | some o => simp [h o ho]

/-- Shape of `unregisterCollection` when the id maps to a collection. -/
theorem unregisterCollection_hit (s : RegState) (cid : Nat) (o : Obj)
    (ho : mfind cid s.byId = some o) (hcat : o.cat = Category.collection) :
    unregisterCollection s cid =
      (true, ⟨merase o.name s.byName, merase cid s.byId, merase o.uuid s.byUuid⟩) := by
  unfold unregisterCollection
  rw [ho]
  simp [hcat]

/-- Shape of `unregisterView` when the id is absent or maps to a collection. -/
theorem unregisterView_miss (s : RegState) (vid : Nat)
    (h : ∀ o, mfind vid s.byId = some o → o.cat ≠ Category.view) :
    unregisterView s vid = (true, s) := by
  unfold unregisterView
  cases ho : mfind vid s.byId with
  | none => rfl
  | some o => simp [h o ho]

/-- Shape of `unregisterView` when the id maps to a view. -/
theorem unregisterView_hit (s : RegState) (vid : Nat) (o : Obj)
    (ho : mfind vid s.byId = some o) (hcat : o.cat = Category.view) :
    unregisterView s vid =
      (true, { s with byName := merase o.name s.byName, byId := merase vid s.byId }) := by
  unfold unregisterView
  rw [ho]
  simp [hcat]

theorem richInv_unregisterCollection {s : RegState} (h : RichInv s) (cid : Nat) :
    RichInv (unregisterCollection s cid).2 := by
  cases ho : mfind cid s.byId with
  | none =>
    rw [unregisterCollection_miss s cid (fun o hx => by rw [ho] at hx; cases hx)]
    exact h
  | some o =>
    by_cases hcat : o.cat = Category.collection
    case neg =>
      rw [unregisterCollection_miss s cid
        (fun o2 hx => by rw [ho] at hx; cases hx; exact hcat)]
      exact h
    case pos =>
      rw [unregisterCollection_hit s cid o ho hcat]
      have hoid : (cid, o) ∈ s.byId := mfind_some_mem ho
      have hOidKey : o.id = cid := h.idKeys _ hoid
      have hOname : (o.name, o) ∈ s.byName := h.idToName _ hoid
      have hOuuid : (o.uuid, o) ∈ s.byUuid := h.idToUuid _ hoid hcat
      constructor
      · intro p hp; exact h.nameKeys p (mem_merase.mp hp).1
      · intro p hp; exact h.idKeys p (mem_merase.mp hp).1
      · intro p hp; exact h.uuidKeys p (mem_merase.mp hp).1
      · intro p hp; exact h.uuidCat p (mem_merase.mp hp).1
      · exact mkeys_nodup_merase h.nameNodup
      · exact mkeys_nodup_merase h.idNodup
      · exact mkeys_nodup_merase h.uuidNodup
      · intro p hp
        obtain ⟨hpm, hpk⟩ := mem_merase.mp hp
        have hin := h.nameToId p hpm
        refine mem_merase.mpr ⟨hin, ?_⟩
        intro hid
        have hpo : p.2 = o := key_inj h.idNodup (hid ▸ hin) hoid
        apply hpk
        rw [← h.nameKeys p hpm, hpo]
      · intro p hp
        obtain ⟨hpm, hpk⟩ := mem_merase.mp hp
        have hin := h.idToName p hpm
        refine mem_merase.mpr ⟨hin, ?_⟩
        intro hname
        have hpo : p.2 = o := key_inj h.nameNodup (hname ▸ hin) hOname
        apply hpk
        rw [← h.idKeys p hpm, hpo, hOidKey]
      · intro p hp hpcat
        obtain ⟨hpm, hpk⟩ := mem_merase.mp hp
        have hin := h.idToUuid p hpm hpcat
        refine mem_merase.mpr ⟨hin, ?_⟩
        intro huuid
        have hpo : p.2 = o := key_inj h.uuidNodup (huuid ▸ hin) hOuuid
        apply hpk
        rw [← h.idKeys p hpm, hpo, hOidKey]
      · intro p hp
        obtain ⟨hpm, hpk⟩ := mem_merase.mp hp
        have hin := h.uuidToId p hpm
        refine mem_merase.mpr ⟨hin, ?_⟩
        intro hid
        have hpo : p.2 = o := key_inj h.idNodup (hid ▸ hin) hoid
        apply hpk
        rw [← h.uuidKeys p hpm, hpo]

theorem richInv_unregisterView {s : RegState} (h : RichInv s) (vid : Nat) :
    RichInv (unregisterView s vid).2 := by
  cases ho : mfind vid s.byId with
  | none =>
    rw [unregisterView_miss s vid (fun o hx => by rw [ho] at hx; cases hx)]
    exact h
  | some o =>
    by_cases hcat : o.cat = Category.view
    case neg =>
      rw [unregisterView_miss s vid
        (fun o2 hx => by rw [ho] at hx; cases hx; exact hcat)]
      exact h
    case pos =>
      rw [unregisterView_hit s vid o ho hcat]
      have hoid : (vid, o) ∈ s.byId := mfind_some_mem ho
      have hOidKey : o.id = vid := h.idKeys _ hoid
      have hOname : (o.name, o) ∈ s.byName := h.idToName _ hoid
      constructor
      · intro p hp; exact h.nameKeys p (mem_merase.mp hp).1
      · intro p hp; exact h.idKeys p (mem_merase.mp hp).1
      · exact h.uuidKeys
      · exact h.uuidCat
      · exact mkeys_nodup_merase h.nameNodup
      · exact mkeys_nodup_merase h.idNodup
      · exact h.uuidNodup
      · intro p hp
        obtain ⟨hpm, hpk⟩ := mem_merase.mp hp
        have hin := h.nameToId p hpm
        refine mem_merase.mpr ⟨hin, ?_⟩
        intro hid
        have hpo : p.2 = o := key_inj h.idNodup (hid ▸ hin) hoid
        apply hpk
        rw [← h.nameKeys p hpm, hpo]
      · intro p hp
        obtain ⟨hpm, hpk⟩ := mem_merase.mp hp
        have hin := h.idToName p hpm
        refine mem_merase.mpr ⟨hin, ?_⟩
        intro hname
        have hpo : p.2 = o := key_inj h.nameNodup (hname ▸ hin) hOname
        apply hpk
        rw [← h.idKeys p hpm, hpo, hOidKey]
      · intro p hp hpcat
        exact h.idToUuid p (mem_merase.mp hp).1 hpcat
      · intro p hp
        have hin := h.uuidToId p hp
        refine mem_merase.mpr ⟨hin, ?_⟩
        intro hid
        have hpo : p.2 = o := key_inj h.idNodup (hid ▸ hin) hoid
        have : Category.collection = Category.view := by
          rw [← h.uuidCat p hp, hpo, hcat]
        exact Category.noConfusion this

/-- `renameView` called on a view that is registered under its own name never
reaches the mutation step: every branch leaves the registry unchanged (the
old-name lookup guard rejects entries whose category IS `view`). -/
theorem renameView_reg_unchanged_of_registered {s : RegState} (h : RichInv s)
    {vid : Nat} {v : Obj} (hv : mfind vid s.byId = some v)
    (hcat : v.cat = Category.view) (newName : String) (pr er : Nat) :
    (renameView s v newName pr er).reg = s := by
  have hmem : (v.name, v) ∈ s.byName := h.idToName _ (mfind_some_mem hv)
  have h4 : mfind v.name s.byName = some v := mfind_of_mem h.nameNodup hmem
  simp only [renameView]
  split
  · rfl
  · split
    · rfl
    · split
      · rfl
      · split
        · rfl
        · next itr1 heq =>
          have hveq : v = itr1 := Option.some.inj (h4.symm.trans heq)
          rw [if_pos (show Category.view = itr1.cat from by rw [← hveq]; exact hcat.symm)]

theorem richInv_renameCollection {s : RegState} (h : RichInv s) (c : Obj)
    (newName : String) (dov : Bool) (er : Nat) :
    RichInv (renameCollection s c newName dov 0 er).reg := by
  simp only [renameCollection]
  split
  · exact h
  · split
    · exact h
    · split
      · exact h
      · split
        · exact h
        · next hdup =>
          split
          · exact h
          · next itr1 hold =>
            split
            · exact h
            · next hcat2 =>
              have hcat : itr1.cat = Category.collection := by
                by_contra hne
                exact hcat2 (fun hx => hne hx.symm)
              simp only [if_pos rfl]
              have hitr : (c.name, itr1) ∈ s.byName := mfind_some_mem hold
              have hitrName : itr1.name = c.name := h.nameKeys _ hitr
              have hitrId : (itr1.id, itr1) ∈ s.byId := h.nameToId _ hitr
              have hitrUuid : (itr1.uuid, itr1) ∈ s.byUuid := h.idToUuid _ hitrId hcat
              have hnew : ∀ p ∈ s.byName, p.1 ≠ newName := mfind_eq_none.mp hdup
              constructor
              · intro p hp0
                rcases List.mem_cons.mp hp0 with rfl | hp
                · rfl
                · exact h.nameKeys p (mem_merase.mp hp).1
              · intro p hp
                rcases mem_mupdate.mp hp with ⟨rfl, _⟩ | ⟨hp, _⟩
                · rfl
                · exact h.idKeys p hp
              · intro p hp
                rcases mem_mupdate.mp hp with ⟨rfl, _⟩ | ⟨hp, _⟩
                · rfl
                · exact h.uuidKeys p hp
              · intro p hp
                rcases mem_mupdate.mp hp with ⟨rfl, _⟩ | ⟨hp, _⟩
                · exact hcat
                · exact h.uuidCat p hp
              · refine List.nodup_cons.mpr ⟨?_, mkeys_nodup_merase h.nameNodup⟩
                intro hmem
                obtain ⟨p, hp, hpk⟩ := mem_mkeys.mp hmem
                exact hnew p (mem_merase.mp hp).1 hpk
              · rw [mkeys_mupdate]
                exact h.idNodup
              · rw [mkeys_mupdate]
                exact h.uuidNodup
              · intro p hp0
                rcases List.mem_cons.mp hp0 with rfl | hp
                · exact mem_mupdate.mpr (Or.inl ⟨rfl, (itr1.id, itr1), hitrId, rfl⟩)
                · obtain ⟨hpm, hpk⟩ := mem_merase.mp hp
                  refine mem_mupdate.mpr (Or.inr ⟨h.nameToId p hpm, ?_⟩)
                  intro hid
                  have hpo : p.2 = itr1 :=
                    key_inj h.idNodup (hid ▸ h.nameToId p hpm) hitrId
                  apply hpk
                  rw [← h.nameKeys p hpm, hpo, hitrName]
              · intro p hp
                rcases mem_mupdate.mp hp with ⟨rfl, _⟩ | ⟨hp, hpk⟩
                · exact List.mem_cons_self _ _
                · have hin := h.idToName p hp
                  refine List.mem_cons_of_mem _ (mem_merase.mpr ⟨hin, ?_⟩)
                  intro hname
                  have hpo : p.2 = itr1 := key_inj h.nameNodup (hname ▸ hin) hitr
                  exact hpk (by rw [← h.idKeys p hp, hpo])
              · intro p hp hpcat
                rcases mem_mupdate.mp hp with ⟨rfl, _⟩ | ⟨hp, hpk⟩
                · exact mem_mupdate.mpr (Or.inl ⟨rfl, (itr1.uuid, itr1), hitrUuid, rfl⟩)
                · have hin := h.idToUuid p hp hpcat
                  refine mem_mupdate.mpr (Or.inr ⟨hin, ?_⟩)
                  intro huuid
                  have hpo : p.2 = itr1 := key_inj h.uuidNodup (huuid ▸ hin) hitrUuid
                  exact hpk (by rw [← h.idKeys p hp, hpo])
              · intro p hp
                rcases mem_mupdate.mp hp with ⟨rfl, _⟩ | ⟨hp, hpk⟩
                · exact mem_mupdate.mpr (Or.inl ⟨rfl, (itr1.id, itr1), hitrId, rfl⟩)
                · have hin := h.uuidToId p hp
                  refine mem_mupdate.mpr (Or.inr ⟨hin, ?_⟩)
                  intro hid
                  have hpo : p.2 = itr1 := key_inj h.idNodup (hid ▸ hin) hitrId
                  exact hpk (by rw [← h.uuidKeys p hp, hpo])

/-- Every registry mutation whose persistence-facing rename succeeds
preserves the inductive invariant.  (A collection rename with failing
persistence leaves a by-name key that no longer matches the object's name —
the subject of claim C1.) -/
theorem richInv_regStep {s : RegState} (h : RichInv s) (op : RegOp)
    (hok : renamePersistOk op) : RichInv (regStep s op) := by
  cases op with
  | regCol c => exact richInv_registerCollection h c
  | regView v => exact richInv_registerView h v
  | unregCol cid => exact richInv_unregisterCollection h cid
  | unregView vid => exact richInv_unregisterView h vid
  | renCol cid newName dov pr er =>
    have hpr : pr = 0 := hok
    subst hpr
    simp only [regStep]
    cases hc : mfind cid s.byId with
    | none => exact h
    | some c =>
      change RichInv (if c.cat = Category.collection
        then (renameCollection s c newName dov 0 er).reg else s)
      by_cases hcat : c.cat = Category.collection
      · rw [if_pos hcat]
        exact richInv_renameCollection h c newName dov er
      · rw [if_neg hcat]
        exact h
  | renView vid newName pr er =>
    simp only [regStep]
    cases hv : mfind vid s.byId with
    | none => exact h
    | some v =>
      change RichInv (if v.cat = Category.view
        then (renameView s v newName pr er).reg else s)
      by_cases hcat : v.cat = Category.view
      · rw [if_pos hcat, renameView_reg_unchanged_of_registered h hv hcat newName pr er]
        exact h
      · rw [if_neg hcat]
        exact h
  | clear =>
    constructor <;> simp [regStep, shutdownClear, mkeys]

theorem richInv_regRun (ops : List RegOp) (hok : ∀ op ∈ ops, renamePersistOk op) :
    RichInv (regRun regInit ops) := by
  suffices hgen : ∀ (l : List RegOp), (∀ op ∈ l, renamePersistOk op) →
      ∀ (s : RegState), RichInv s → RichInv (List.foldl regStep s l) from
    hgen ops hok regInit richInv_init
  intro l
  induction l with
  | nil =>
    intro _ s hs
    exact hs
  | cons op rest ih =>
    intro hl s hs
    exact ih (fun o ho => hl o (List.mem_cons_of_mem op ho)) (regStep s op)
      (richInv_regStep hs op (hl op (List.mem_cons_self op rest)))

/-! ### Reference counter lemmas -/

/-- `fetch_or(1)` sets the low bit: arithmetic form. -/
theorem lor_one_eq (v : Nat) : v ||| 1 = if v % 2 = 1 then v else v + 1 := by
  have h2 : (1 : Nat) = Nat.bit true 0 := by simp [Nat.bit]
  rcases Nat.mod_two_eq_zero_or_one v with h | h
  · obtain ⟨k, rfl⟩ : ∃ k, v = 2 * k := ⟨v / 2, by omega⟩
    have h1 : (2 * k : Nat) = Nat.bit false k := by simp [Nat.bit]
    rw [if_neg (by omega), h1, h2, Nat.lor_bit]
    simp [Nat.bit]
  · obtain ⟨k, rfl⟩ : ∃ k, v = 2 * k + 1 := ⟨v / 2, by omega⟩
    have h1 : (2 * k + 1 : Nat) = Nat.bit true k := by simp [Nat.bit]
    rw [if_pos h, h1, h2, Nat.lor_bit]
    simp [Nat.bit]

theorem mod_refcount_parity (a : Nat) : (a % REFCOUNT_MOD) % 2 = a % 2 :=
  Nat.mod_mod_of_dvd a ⟨2 ^ 63, by norm_num [REFCOUNT_MOD]⟩

/-- Every counter operation preserves the deleted bit once it is set. -/
theorem rcStep_odd {v : Nat} (h : v % 2 = 1) (op : RcOp) : rcStep v op % 2 = 1 := by
  cases op with
  | use => simp [rcStep, vocbaseUse, h]
  | release =>
    simp only [rcStep, vocbaseRelease]
    rw [mod_refcount_parity]
    simp only [REFCOUNT_MOD]
    omega
  | markAsDropped =>
    simp only [rcStep, vocbaseMarkAsDropped, lor_one_eq, if_pos h]
    exact h

theorem rcRun_odd {v : Nat} (h : v % 2 = 1) (ops : List RcOp) :
    rcRun v ops % 2 = 1 := by
  induction ops generalizing v with
  | nil => exact h
  | cons op rest ih => exact ih (rcStep_odd h op)

theorem vocbaseUse_even {v : Nat} (h : v % 2 = 0) :
    vocbaseUse v = (true, (v + 2) % REFCOUNT_MOD) := by
  simp [vocbaseUse, h]

theorem rcUseN_even (n : Nat) : ∀ v, v % 2 = 0 → v < REFCOUNT_MOD →
    rcUseN n v = (v + 2 * n) % REFCOUNT_MOD ∧ rcUseNOk n v = true := by
  induction n with
  | zero =>
    intro v hv hlt
    simp [rcUseN, rcUseNOk, Nat.mod_eq_of_lt hlt]
  | succ n ih =>
    intro v hv hlt
    have hModPos : 0 < REFCOUNT_MOD := by norm_num [REFCOUNT_MOD]
    have hstep : (vocbaseUse v).2 = (v + 2) % REFCOUNT_MOD := by
      rw [vocbaseUse_even hv]
    have hpar : ((v + 2) % REFCOUNT_MOD) % 2 = 0 := by
      rw [mod_refcount_parity]; omega
    have hlt2 : (v + 2) % REFCOUNT_MOD < REFCOUNT_MOD := Nat.mod_lt _ hModPos
    obtain ⟨ihv, ihok⟩ := ih ((v + 2) % REFCOUNT_MOD) hpar hlt2
    constructor
    · show rcUseN n (vocbaseUse v).2 = _
      rw [hstep, ihv, Nat.mod_add_mod]
      congr 1
      ring
    · show ((vocbaseUse v).1 && rcUseNOk n (vocbaseUse v).2) = true
      rw [vocbaseUse_even hv]
      simp [ihok]

theorem rcReleaseN_eq (n : Nat) : ∀ v, v < REFCOUNT_MOD →
    rcReleaseN n v = (v + n * (REFCOUNT_MOD - 2)) % REFCOUNT_MOD := by
  induction n with
  | zero =>
    intro v hlt
    show v = (v + 0 * (REFCOUNT_MOD - 2)) % REFCOUNT_MOD
    rw [Nat.zero_mul, Nat.add_zero, Nat.mod_eq_of_lt hlt]
  | succ n ih =>
    intro v hlt
    have hModPos : 0 < REFCOUNT_MOD := by norm_num [REFCOUNT_MOD]
    have hlt2 : (REFCOUNT_MOD - 2 + v) % REFCOUNT_MOD < REFCOUNT_MOD :=
      Nat.mod_lt _ hModPos
    show rcReleaseN n (vocbaseRelease v) = _
    rw [show vocbaseRelease v = (REFCOUNT_MOD - 2 + v) % REFCOUNT_MOD from rfl,
      ih _ hlt2, Nat.mod_add_mod]
    congr 1
    ring

/-! ## Concrete fixtures for evaluations -/

/-- A sample registered collection. -/
def colA : Obj := ⟨1, "alpha", "uuid-a", Category.collection, false⟩

/-- Registry holding exactly `colA`. -/
def stateA : RegState := ⟨[("alpha", colA)], [(1, colA)], [("uuid-a", colA)]⟩

/-- A sample registered view. -/
def viewV : Obj := ⟨2, "vee", "", Category.view, false⟩

/-- Registry holding exactly `viewV` (views have no by-uuid entry). -/
def stateV : RegState := ⟨[("vee", viewV)], [(2, viewV)], []⟩

/-- A sample system collection. -/
def sysCol : Obj := ⟨3, "_users", "uuid-s", Category.collection, true⟩

/-! ## The claims -/

/-- When every collection rename in a mutation sequence persists
successfully, the count invariants do hold after every mutation (quantifying
over all sequences covers every prefix). -/
theorem checkCollectionInvariants_regRun_of_persistOk (ops : List RegOp)
    (hok : ∀ op ∈ ops, renamePersistOk op) :
    checkCollectionInvariants (regRun regInit ops) :=
  checkCollectionInvariants_of_richInv (richInv_regRun ops hok)

/-- Claim C1 (code bug): `checkCollectionInvariants` — the assertion the
source runs after every registry mutation — is violated by a reachable
mutation sequence.  Register collection "alpha" (id 1); rename it to the
legal, unused name "beta" with the persistence-facing rename failing (error
7): the missing `return` swaps the by-name key anyway while the object keeps
its old name; then unregister the collection: the by-id entry is erased but
the by-name erase, keyed off the object's name "alpha", misses the swapped
key "beta", leaving count(byName) = 1 while count(byId) = 0. -/
theorem C1_count_invariant_broken_by_failed_rename :
    ¬ checkCollectionInvariants (regRun regInit
        [RegOp.regCol colA, RegOp.renCol 1 "beta" false 7 0, RegOp.unregCol 1]) ∧
    (regRun regInit
        [RegOp.regCol colA, RegOp.renCol 1 "beta" false 7 0,
         RegOp.unregCol 1]).byName.length = 1 ∧
    (regRun regInit
        [RegOp.regCol colA, RegOp.renCol 1 "beta" false 7 0,
         RegOp.unregCol 1]).byId.length = 0 := by
  decide

/-- Claim C2: a registration attempt (collection or view) that fails with a
duplicate-name / duplicate-identifier error leaves all three maps exactly as
they were before the call — the partial inserts (by-name before a failed
by-id, by-name and by-id before a failed by-uuid) are rolled back, so no map
retains a partial entry for the object being registered. -/
theorem C2_failed_registration_rollback (s : RegState) (c : Obj) (e : Nat) :
    ((registerCollection s c).1 = some e → (registerCollection s c).2 = s) ∧
    ((registerView s c).1 = some e → (registerView s c).2 = s) :=
  ⟨registerCollection_fail_unchanged s c e, registerView_fail_unchanged s c e⟩

theorem C2_witness :
    (registerCollection stateA colA).1 = some TRI_ERROR_ARANGO_DUPLICATE_NAME ∧
    (registerCollection stateA colA).2 = stateA ∧
    (registerView stateV viewV).1 = some TRI_ERROR_ARANGO_DUPLICATE_NAME ∧
    (registerView stateV viewV).2 = stateV :=
  ⟨by decide,
   (C2_failed_registration_rollback stateA colA TRI_ERROR_ARANGO_DUPLICATE_NAME).1 (by decide),
   by decide,
   (C2_failed_registration_rollback stateV viewV TRI_ERROR_ARANGO_DUPLICATE_NAME).2 (by decide)⟩

/-- Claim C3 (code bug): with collection "alpha" registered, renaming it to
the legal, unused name "beta" while the persistence-facing rename call fails
(error 7) still swaps the by-name keys (new key present, old key gone) and
returns the storage engine's success code instead of the error: the source
consumes the failure with a bare `res.errorNumber();` statement (no
`return`), so nothing is rolled back and the error is swallowed. -/
theorem C3_rename_persist_failure_not_rolled_back :
    (renameCollection stateA colA "beta" false 7 0).code = TRI_ERROR_NO_ERROR ∧
    mfind "beta" (renameCollection stateA colA "beta" false 7 0).reg.byName = some colA ∧
    mfind "alpha" (renameCollection stateA colA "beta" false 7 0).reg.byName = none := by
  decide

/-- Claim C4 as stated is false at this input: dropping the LOADED collection
"alpha" when the persistence step (updateProperties) fails with error 7
returns the error but leaves the deleted flag SET — the source rolls the flag
back only in the UNLOADED branch. -/
theorem C4_counterexample :
    (dropCollectionWorkerBody stateA colA ColStatus.loaded false 0 7).code = 7 ∧
    (dropCollectionWorkerBody stateA colA ColStatus.loaded false 0 7).deletedFlag ≠ false := by
  decide

/-- Claim C4 amended: when the persistence step of a drop fails, the error is
returned, the registry is untouched (the collection stays registered) and the
status is unchanged, so the drop is retryable; the deleted flag is rolled
back to false in the UNLOADED branch but remains set in the LOADED and
UNLOADING branches. -/
theorem C4_amended (s : RegState) (c : Obj) (deletedFlag : Bool)
    (changeRes updateRes : Nat) :
    (deletedFlag = false → changeRes ≠ 0 →
      dropCollectionWorkerBody s c ColStatus.unloaded deletedFlag changeRes updateRes
        = ⟨changeRes, ColStatus.unloaded, false, s, DropState.dropExit⟩) ∧
    (∀ status, (status = ColStatus.loaded ∨ status = ColStatus.unloading) →
      updateRes ≠ 0 →
      dropCollectionWorkerBody s c status deletedFlag changeRes updateRes
        = ⟨updateRes, status, true, s, DropState.dropExit⟩) := by
  constructor
  · intro h1 h2
    subst h1
    simp [dropCollectionWorkerBody, h2]
  · rintro status (rfl | rfl) h2 <;> simp [dropCollectionWorkerBody, h2]

theorem C4_amended_witness :
    dropCollectionWorkerBody stateA colA ColStatus.unloaded false 5 0
      = ⟨5, ColStatus.unloaded, false, stateA, DropState.dropExit⟩ ∧
    dropCollectionWorkerBody stateA colA ColStatus.loaded false 0 7
      = ⟨7, ColStatus.loaded, true, stateA, DropState.dropExit⟩ :=
  ⟨(C4_amended stateA colA false 5 0).1 rfl (by decide),
   (C4_amended stateA colA false 0 7).2 ColStatus.loaded (Or.inl rfl) (by decide)⟩

/-- Claim C5: when the timeout is non-negative and expires while the
per-collection status lock is still contended (the dual-lock loop gives up),
`dropCollectionWorker` returns TRI_ERROR_LOCK_TIMEOUT and has mutated
nothing: registry, collection status and deleted flag are all returned
exactly as they came in, and the drop state stays DROP_EXIT. -/
theorem C5_drop_timeout_no_mutation (s : RegState) (c : Obj) (status : ColStatus)
    (deletedFlag : Bool) (changeRes updateRes : Nat) (tryLock : Nat → Bool)
    (exceeded : Nat → Bool) (fuel : Nat)
    (h : dropLockLoop tryLock true exceeded fuel 0 = some DropLoopResult.timedOut) :
    dropCollectionWorker s c status deletedFlag changeRes updateRes
        tryLock true exceeded fuel
      = some ⟨TRI_ERROR_LOCK_TIMEOUT, status, deletedFlag, s, DropState.dropExit⟩ := by
  unfold dropCollectionWorker
  rw [h]

theorem C5_witness :
    dropCollectionWorker stateA colA ColStatus.loaded false 0 0
        (fun _ => false) true (fun _ => true) 3
      = some ⟨TRI_ERROR_LOCK_TIMEOUT, ColStatus.loaded, false, stateA,
              DropState.dropExit⟩ :=
  C5_drop_timeout_no_mutation stateA colA ColStatus.loaded false 0 0
    (fun _ => false) (fun _ => true) 3 rfl

/-- Claim C6: once the deleted bit (low bit of the encoded counter) is set,
any sequence of use/release/markAsDropped keeps it set, every subsequent
use() returns false without mutating the counter, the handle is eligible for
destruction (isDangling) only when the encoded value is exactly 1, and a
system database is never eligible. -/
theorem C6_deleted_bit_sticky (v0 : Nat) (ops : List RcOp) (sys : Bool)
    (hodd : v0 % 2 = 1) :
    rcRun v0 ops % 2 = 1 ∧
    vocbaseUse (rcRun v0 ops) = (false, rcRun v0 ops) ∧
    (vocbaseIsDangling sys (rcRun v0 ops) = true → sys = false ∧ rcRun v0 ops = 1) ∧
    (sys = true → vocbaseIsDangling sys (rcRun v0 ops) = false) := by
  have h := rcRun_odd hodd ops
  refine ⟨h, by simp [vocbaseUse, h], ?_, ?_⟩
  · intro hd
    simp only [vocbaseIsDangling, Bool.and_eq_true, Bool.not_eq_true', beq_iff_eq] at hd
    exact hd
  · intro hs
    simp [vocbaseIsDangling, hs]

theorem C6_witness :
    rcRun 3 [RcOp.use, RcOp.markAsDropped] % 2 = 1 ∧
    vocbaseUse (rcRun 3 [RcOp.use, RcOp.markAsDropped])
      = (false, rcRun 3 [RcOp.use, RcOp.markAsDropped]) ∧
    (vocbaseIsDangling false (rcRun 3 [RcOp.use, RcOp.markAsDropped]) = true →
      false = false ∧ rcRun 3 [RcOp.use, RcOp.markAsDropped] = 1) ∧
    (false = true →
      vocbaseIsDangling false (rcRun 3 [RcOp.use, RcOp.markAsDropped]) = false) :=
  C6_deleted_bit_sticky 3 [RcOp.use, RcOp.markAsDropped] false (by decide)

/-- Claim C7: starting from the initial counter (0) of a non-system database,
N use() calls all succeed, and after N matching release() calls with no
intervening markAsDropped() the handle is not dangling; with markAsDropped()
between the N uses and the N releases, it ends up dangling. -/
theorem C7_refcount_parity (N : Nat) :
    rcUseNOk N 0 = true ∧
    vocbaseIsDangling false (rcReleaseN N (rcUseN N 0)) = false ∧
    vocbaseIsDangling false
      (rcReleaseN N ((vocbaseMarkAsDropped (rcUseN N 0)).2)) = true := by
  have hModPos : 0 < REFCOUNT_MOD := by norm_num [REFCOUNT_MOD]
  obtain ⟨hval, hok⟩ := rcUseN_even N 0 (by decide) hModPos
  refine ⟨hok, ?_, ?_⟩
  · rw [hval, rcReleaseN_eq N _ (Nat.mod_lt _ hModPos)]
    have hz : ((0 + 2 * N) % REFCOUNT_MOD + N * (REFCOUNT_MOD - 2)) % REFCOUNT_MOD
        = 0 := by
      simp only [REFCOUNT_MOD]
      omega
    rw [hz]
    decide
  · have hpar : rcUseN N 0 % 2 = 0 := by
      rw [hval, mod_refcount_parity]
      omega
    have hmark : (vocbaseMarkAsDropped (rcUseN N 0)).2 = rcUseN N 0 + 1 := by
      simp [vocbaseMarkAsDropped, lor_one_eq, hpar]
    have hlt : rcUseN N 0 + 1 < REFCOUNT_MOD := by
      rw [hval]
      have := Nat.mod_lt (0 + 2 * N) hModPos
      have hp : ((0 + 2 * N) % REFCOUNT_MOD) % 2 = 0 := by
        rw [mod_refcount_parity]; omega
      simp only [REFCOUNT_MOD] at this hp ⊢
      omega
    rw [hmark, rcReleaseN_eq N _ hlt, hval]
    have ho : ((0 + 2 * N) % REFCOUNT_MOD + 1 + N * (REFCOUNT_MOD - 2)) % REFCOUNT_MOD
        = 1 := by
      simp only [REFCOUNT_MOD]
      omega
    rw [ho]
    decide

/-- Claim C8 as stated is false at this input: dropping the non-existent view
"nosuch" by name reports TRI_ERROR_ARANGO_DATA_SOURCE_NOT_FOUND rather than
success (the registry maps are indeed left unchanged). -/
theorem C8_counterexample :
    (dropViewByName regInit "nosuch").1 = TRI_ERROR_ARANGO_DATA_SOURCE_NOT_FOUND ∧
    (dropViewByName regInit "nosuch").1 ≠ TRI_ERROR_NO_ERROR ∧
    (dropViewByName regInit "nosuch").2 = regInit := by
  decide

/-- Claim C8 amended: unregistering an id that is absent from the registry or
whose entry has a different category is a no-op success that leaves all three
maps unchanged, and the drop worker on an already-unregistered (DELETED)
collection likewise reports success without touching the maps; dropping a
non-existent view BY NAME, however, returns a not-found error — still without
mutating the registry. -/
theorem C8_amended (s : RegState) (cid vid : Nat) (name : String) :
    ((∀ o, mfind cid s.byId = some o → o.cat ≠ Category.collection) →
      unregisterCollection s cid = (true, s)) ∧
    ((∀ o, mfind vid s.byId = some o → o.cat ≠ Category.view) →
      unregisterView s vid = (true, s)) ∧
    (∀ c : Obj, ∀ dflag : Bool, ∀ cr ur : Nat,
      (∀ o, mfind c.id s.byId = some o → o.cat ≠ Category.collection) →
      dropCollectionWorkerBody s c ColStatus.deleted dflag cr ur
        = ⟨TRI_ERROR_NO_ERROR, ColStatus.deleted, dflag, s, DropState.dropExit⟩) ∧
    (lookupView s name = none →
      dropViewByName s name = (TRI_ERROR_ARANGO_DATA_SOURCE_NOT_FOUND, s)) := by
  refine ⟨unregisterCollection_miss s cid, unregisterView_miss s vid, ?_, ?_⟩
  · intro c dflag cr ur hmiss
    simp [dropCollectionWorkerBody, unregisterCollection_miss s c.id hmiss]
  · intro h
    unfold dropViewByName
    rw [h]

theorem C8_amended_witness :
    unregisterCollection regInit 9 = (true, regInit) ∧
    unregisterView stateA 1 = (true, stateA) ∧
    dropCollectionWorkerBody regInit colA ColStatus.deleted true 0 0
      = ⟨TRI_ERROR_NO_ERROR, ColStatus.deleted, true, regInit, DropState.dropExit⟩ ∧
    dropViewByName regInit "nosuch" = (TRI_ERROR_ARANGO_DATA_SOURCE_NOT_FOUND, regInit) := by
  have hnone : ∀ o : Obj, mfind 9 regInit.byId = some o → o.cat ≠ Category.collection :=
    fun o ho => nomatch ho
  have hnone2 : ∀ o : Obj, mfind 1 regInit.byId = some o → o.cat ≠ Category.collection :=
    fun o ho => nomatch ho
  have hmismatch : ∀ o : Obj, mfind 1 stateA.byId = some o → o.cat ≠ Category.view := by
    intro o ho
    have h2 : mfind 1 stateA.byId = some colA := rfl
    rw [h2] at ho
    rw [← Option.some.inj ho]
    decide
  exact ⟨(C8_amended regInit 9 9 "nosuch").1 hnone,
         (C8_amended stateA 1 1 "nosuch").2.1 hmismatch,
         (C8_amended regInit 9 9 "nosuch").2.2.1 colA true 0 0 hnone2,
         (C8_amended regInit 9 9 "nosuch").2.2.2 (by decide)⟩

/-- Claim C9 (code bug): with view "vee" registered under its own name,
renaming it to the legal, unused, different name "wub" returns
TRI_ERROR_ARANGO_DATA_SOURCE_NOT_FOUND and performs no mutation, because the
old-name category guard is inverted (`LogicalView::category() ==
itr1->second->category()` where the assertion right below it requires the
found entry to BE a view): a registered view can never pass the guard. -/
theorem C9_renameView_registered_view_not_found :
    renameView stateV viewV "wub" 0 0
      = ⟨TRI_ERROR_ARANGO_DATA_SOURCE_NOT_FOUND, stateV,
         [REvent.lockInventory, REvent.lockRegistry]⟩ := by
  decide

/-- Claim C10 as stated is false at this input: `renameCollection` checks
`isSystem()` before the identity-rename check, so a system collection renamed
to its own current name gets TRI_ERROR_FORBIDDEN, not success. -/
theorem C10_counterexample :
    (renameCollection regInit sysCol "_users" false 0 0).code = TRI_ERROR_FORBIDDEN ∧
    (renameCollection regInit sysCol "_users" false 0 0).code ≠ TRI_ERROR_NO_ERROR := by
  decide

/-- Claim C10 amended: an identity rename (requested new name equal to the
current name) is a no-op success for every view and for every non-system
collection — no inventory or registry lock is taken, no registry map is
mutated, and the persistence-facing rename is never invoked (empty event
trace); a system collection instead fails with Forbidden before the identity
check, equally without locks, mutation or persistence calls. -/
theorem C10_amended (s : RegState) (c v : Obj) (dov : Bool) (pr er : Nat) :
    (c.isSys = false →
      renameCollection s c c.name dov pr er = ⟨TRI_ERROR_NO_ERROR, s, []⟩) ∧
    renameView s v v.name pr er = ⟨TRI_ERROR_NO_ERROR, s, []⟩ ∧
    (c.isSys = true →
      renameCollection s c c.name dov pr er = ⟨TRI_ERROR_FORBIDDEN, s, []⟩) := by
  refine ⟨?_, ?_, ?_⟩
  · intro h
    simp [renameCollection, h]
  · simp [renameView]
  · intro h
    simp [renameCollection, h]

theorem C10_amended_witness :
    renameCollection stateA colA "alpha" false 3 4 = ⟨TRI_ERROR_NO_ERROR, stateA, []⟩ ∧
    renameView stateV viewV "vee" 3 4 = ⟨TRI_ERROR_NO_ERROR, stateV, []⟩ ∧
    renameCollection regInit sysCol "_users" true 3 4
      = ⟨TRI_ERROR_FORBIDDEN, regInit, []⟩ :=
  ⟨(C10_amended stateA colA viewV false 3 4).1 rfl,
   (C10_amended stateV colA viewV false 3 4).2.1,
   (C10_amended regInit sysCol viewV true 3 4).2.2 rfl⟩

end Vocbase
